import Mathlib

/-!
Shallow embedding of the neo23blaster prop firmware (Python sources
`src/blaster/__init__.py`, `src/blaster/hardware.py`, `src/blaster/behavior.py`
and the standalone variant `src/code.py`) together with theorems settling the
frozen claims about it.

Pixels are four bounded integer channels; we model channels as integers and a
pixel as a 4-tuple.  Brightness values are modelled as rationals: the only
brightness used by the firmware is MAX_BRIGHTNESS = 0.5, which is exact in
binary floating point, so rational arithmetic coincides with the Python float
arithmetic on every computation the firmware performs.  Python `int()`
truncation toward zero is modelled by `pyInt`.
-/

namespace Blaster

/-- A pixel: four integer channels (R, G, B, W before reordering). -/
abbrev RGBW := ℤ × ℤ × ℤ × ℤ

/-- Python `int()` on a rational: truncation toward zero. -/
def pyInt (q : ℚ) : ℤ :=
  if q < 0 then -(Int.floor (-q)) else Int.floor q

/-- The clamping performed first inside `apply_brightness`:
`brightness = min(max(brightness, 0.0), 1.0)`. -/
def clamp01 (b : ℚ) : ℚ := min (max b 0) 1

/-- One channel scaled: `int(color * brightness)` (brightness already clamped). -/
def scaleChannel (b : ℚ) (c : ℤ) : ℤ := pyInt ((c : ℚ) * b)

/-- One pixel scaled channel-wise by an (already clamped) brightness. -/
def scalePixel (b : ℚ) (p : RGBW) : RGBW :=
  (scaleChannel b p.1, scaleChannel b p.2.1, scaleChannel b p.2.2.1,
   scaleChannel b p.2.2.2)

/-- `apply_brightness(brightness, *pixels)` from `blaster/__init__.py`, acting
on a batch of pixels.  The Python function clamps the brightness to [0, 1] and
then maps `int(color * brightness)` over every channel of every pixel.  (The
Python single-pixel/tuple return convention is modelled uniformly as a list.) -/
def apply_brightness (b : ℚ) (pixels : List RGBW) : List RGBW :=
  pixels.map (scalePixel (clamp01 b))

/-- `apply_brightness` on a single pixel (the one-argument call form). -/
def applyBrightness1 (b : ℚ) (p : RGBW) : RGBW := scalePixel (clamp01 b) p

/-- `grbw` on one pixel: `(pixel[1], pixel[0], pixel[2], pixel[3])`. -/
def grbw1 (p : RGBW) : RGBW := (p.2.1, p.1, p.2.2.1, p.2.2.2)

/-- `grbw(*pixels)` from `blaster/__init__.py` on a batch of pixels. -/
def grbw (pixels : List RGBW) : List RGBW := pixels.map grbw1

/-- `pixels_to_bytes(pixels)`: concatenates the channels of each pixel into a
flat sequence. -/
def pixels_to_bytes (pixels : List RGBW) : List ℤ :=
  pixels.flatMap (fun p => [p.1, p.2.1, p.2.2.1, p.2.2.2])

-- Configuration constants from `blaster/__init__.py` and `blaster/hardware.py`.

/-- Trigger hold time (seconds) needed to enter CHARGING. -/
def CHARGE_THRESHOLD : ℚ := 1/2

/-- Brightness cap: `MAX_BRIGHTNESS = 0.5`. -/
def MAX_BRIGHTNESS : ℚ := 1/2

def IDLE_FULL : RGBW := (0, 68, 255, 0)
def IDLE_FADE : RGBW := (0, 11, 42, 0)
def CHARGE_FADE : RGBW := (0, 22, 64, 0)
def BLAST_FULL : RGBW := (255, 0, 0, 0)
def BLAST_FADE : RGBW := (25, 0, 0, 0)

def NUM_LEDS : ℕ := 15

/-- Bytes per pixel for the byte-level strip buffer in `hardware.py`. -/
def BPP : ℕ := 4

/-- `CHARGE_SPRITE` from `hardware.py`: channel reorder, then brightness,
then byte flattening. -/
def CHARGE_SPRITE : List ℤ :=
  pixels_to_bytes
    (apply_brightness MAX_BRIGHTNESS
      (grbw [CHARGE_FADE, IDLE_FULL, IDLE_FULL, CHARGE_FADE]))

/-- `BLAST_SPRITE` from `hardware.py`. -/
def BLAST_SPRITE : List ℤ :=
  pixels_to_bytes
    (apply_brightness MAX_BRIGHTNESS
      (grbw [IDLE_FADE, BLAST_FADE, BLAST_FULL, BLAST_FADE, IDLE_FADE]))

/-- The single cell of the idle image: `grbw(apply_brightness(MAX_BRIGHTNESS,
IDLE_FADE))` (brightness first, then reorder — the opposite order from the
sprites). -/
def idleCell : RGBW := grbw1 (applyBrightness1 MAX_BRIGHTNESS IDLE_FADE)

/-- `IDLE_IMAGE` from `hardware.py`: `NUM_LEDS` copies of the idle cell,
flattened to bytes. -/
def IDLE_IMAGE : List ℤ := pixels_to_bytes (List.replicate NUM_LEDS idleCell)

-- -----------------------------------------------------------------------------
-- Sprite compositor (`BlasterProp.draw_sprite` / `animate_sprite`)
-- -----------------------------------------------------------------------------

/-- One guarded buffer write: `if target_index in range(len(buffer)):
buffer[target_index] = v`.  Out-of-range indices (negative included) are
silently dropped — Python `in range(n)` membership, not index wraparound. -/
def writeAt {α : Type} (buffer : List α) (idx : ℤ) (v : α) : List α :=
  if 0 ≤ idx ∧ idx < buffer.length then buffer.set idx.toNat v else buffer

/-- The body of the `draw_sprite` loop, iterating over the sprite cells in
ascending index order: cell `sprite[i]` is written at `start + i`. -/
def drawFrom {α : Type} (buffer : List α) (sprite : List α) (start : ℤ) :
    List α :=
  match sprite with
  | [] => buffer
  | v :: rest => drawFrom (writeAt buffer start v) rest (start + 1)

/-- `draw_sprite(sprite, offset)`: `target_start = offset - len(sprite)`, then
each sprite cell `i` is written at `target_start + i` when in bounds.  The
element type is abstract: `hardware.py` draws bytes, `code.py` draws pixels. -/
def draw_sprite {α : Type} (buffer : List α) (sprite : List α) (offset : ℤ) :
    List α :=
  drawFrom buffer sprite (offset - sprite.length)

/-- The successive frames of an animation: one `draw_sprite` and one presented
frame per offset in the given list, threading the buffer through. -/
def animate_frames {α : Type} (sprite : List α) :
    List α → List ℤ → List (List α)
  | _, [] => []
  | buf, o :: rest =>
    let b := draw_sprite buf sprite o
    b :: animate_frames sprite b rest

/-- `animate_sprite` from `code.py`: one frame per offset in
`range(len(buffer) + len(sprite))` (step 1, pixel granularity). -/
def animate_sprite {α : Type} (buffer : List α) (sprite : List α) :
    List (List α) :=
  animate_frames sprite buffer
    ((List.range (buffer.length + sprite.length)).map Int.ofNat)

/-- `animate_sprite` from `hardware.py`: one frame per offset in
`range(0, len(led_strip) + len(sprite), BPP)` over the byte buffer.  Python
`range(0, stop, 4)` has `ceil(stop / 4) = (stop + 3) / 4` elements
`0, 4, 8, ...`. -/
def animate_sprite_hw (led_strip : List ℤ) (sprite : List ℤ) :
    List (List ℤ) :=
  animate_frames sprite led_strip
    ((List.range ((led_strip.length + sprite.length + 3) / 4)).map
      (fun k => ((BPP * k : ℕ) : ℤ)))

/-- The buffer after drawing at every offset of a list in order (used to state
which buffer each animation frame shows). -/
def drawSeq {α : Type} (buffer : List α) (sprite : List α)
    (offsets : List ℤ) : List α :=
  offsets.foldl (fun buf o => draw_sprite buf sprite o) buffer

-- -----------------------------------------------------------------------------
-- Behavior state machine (`blaster/behavior.py`, `PropStateMachine`)
-- -----------------------------------------------------------------------------

-- State names from `behavior.py`.
def STATE_CHARGED : String := "CHARGED"
def STATE_CHARGING : String := "CHARGING"
def STATE_FIRING : String := "FIRING"
def STATE_IDLE : String := "IDLE"
def STATE_TRIGGER : String := "TRIGGER"

/-- The observable hook invocations the machine engine performs, in order. -/
inductive Event where
  | updateEv (name : String)
  | exitEv (name : String)
  | enterEv (name : String)
  deriving Repr, DecidableEq

/-- One prop state: its name and its enter/exit/update hooks.  The hooks act
on an abstract world `σ` (the prop hardware plus any state-internal data);
`update` additionally yields the next-state name or `none`. -/
structure StateDef (σ : Type) where
  name : String
  enter : σ → σ
  exitHook : σ → σ
  update : σ → σ × Option String

/-- The machine: the state table (insertion order preserved) and the current
state (`None` until one is set). -/
structure Machine (σ : Type) where
  states : List (StateDef σ)
  current : Option (StateDef σ)

/-- Lookup in the name-keyed table `self.__states`.  The Python dict is built
by inserting each state under its name, so on duplicate names the LAST
insertion wins: search the reversed insertion list. -/
def tableLookup {σ : Type} (states : List (StateDef σ)) (n : String) :
    Option (StateDef σ) :=
  states.reverse.find? (fun st => st.name == n)

/-- The `state` property setter: exit the current state (if any), look the new
name up in the table — a missing name raises `KeyError`, modelled as `.error`
carrying the missing name, the world after the exit hook already ran, and the
events so far — then install and enter the new state. -/
def setMachineState {σ : Type} (m : Machine σ) (s : σ) (value : String) :
    Except (String × σ × List Event) (Machine σ × σ × List Event) :=
  let p :=
    match m.current with
    | some st => (st.exitHook s, [Event.exitEv st.name])
    | none => (s, ([] : List Event))
  match tableLookup m.states value with
  | none => .error (value, p.1, p.2)
  | some st2 =>
    .ok ({ m with current := some st2 }, st2.enter p.1,
         p.2 ++ [Event.enterEv st2.name])

/-- `PropStateMachine.update`: a no-op when no current state is set; otherwise
run the current state update hook once and, if it returned a truthy name
(Python `if next_state:` — the empty string is falsy), perform the single
exit/switch/enter transition synchronously. -/
def machineUpdate {σ : Type} (m : Machine σ) (s : σ) :
    Except (String × σ × List Event) (Machine σ × σ × List Event) :=
  match m.current with
  | none => .ok (m, s, [])
  | some st =>
    let r := st.update s
    match r.2 with
    | none => .ok (m, r.1, [Event.updateEv st.name])
    | some n =>
      if n = "" then .ok (m, r.1, [Event.updateEv st.name])
      else
        match setMachineState m r.1 n with
        | .error e => .error (e.1, e.2.1, Event.updateEv st.name :: e.2.2)
        | .ok o => .ok (o.1, o.2.1, Event.updateEv st.name :: o.2.2)

/-- `PropStateMachine.__init__`: record the state table with `current = None`;
when a truthy initial state name is given, immediately set it. -/
def machineInit {σ : Type} (states : List (StateDef σ))
    (initial : Option String) (s : σ) :
    Except (String × σ × List Event) (Machine σ × σ × List Event) :=
  let m : Machine σ := ⟨states, none⟩
  match initial with
  | none => .ok (m, s, [])
  | some n => if n = "" then .ok (m, s, []) else setMachineState m s n

/-- Iterated `machineUpdate` (consecutive event-loop ticks); stops at the
first raised error. -/
def iterUpdate {σ : Type} (m : Machine σ) (s : σ) :
    ℕ → Except (String × σ × List Event) (Machine σ × σ)
  | 0 => .ok (m, s)
  | k + 1 =>
    match machineUpdate m s with
    | .error e => .error e
    | .ok o => iterUpdate o.1 o.2.1 k

-- -----------------------------------------------------------------------------
-- Concrete state behaviors used by the claims
-- -----------------------------------------------------------------------------

/-- `BlasterProp.trigger` (`hardware.py`): the switch is wired with a pull-up
resistor, so the trigger is pressed exactly when the switch input reads low:
`return not self.switch.value`. -/
def trigger (switch_value : Bool) : Bool := !switch_value

/-- `TriggerState.update` (`behavior.py`): `delta = abs(monotonic() - entry)`;
released trigger fires immediately, a hold longer than `CHARGE_THRESHOLD`
starts charging, otherwise stay. -/
def triggerStateUpdate (pressed : Bool) (now entry : ℚ) : Option String :=
  let delta := |now - entry|
  if pressed then
    if delta > CHARGE_THRESHOLD then some STATE_CHARGING else none
  else some STATE_FIRING

/-- `ChargedState.update` (`behavior.py`): reads the raw switch value and
returns FIRING when it is high (trigger released), else stays. -/
def chargedStateUpdate (switch_value : Bool) : Option String :=
  if switch_value then some STATE_FIRING else none

/-- The CHARGED state as a `StateDef` over the world consisting of the raw
switch value: `enter`/`exit` are the base-class logging no-ops. -/
def chargedStateDef : StateDef Bool :=
  { name := STATE_CHARGED
    enter := id
    exitHook := id
    update := fun sv => (sv, chargedStateUpdate sv) }

-- -----------------------------------------------------------------------------
-- Compositor lemmas
-- -----------------------------------------------------------------------------

theorem writeAt_length {α : Type} (buffer : List α) (idx : ℤ) (v : α) :
    (writeAt buffer idx v).length = buffer.length := by
  unfold writeAt
  split
  · exact List.length_set buffer idx.toNat v
  · rfl

theorem getD_writeAt {α : Type} (buffer : List α) (idx : ℤ) (v d : α)
    (j : ℕ) (hj : j < buffer.length) :
    (writeAt buffer idx v).getD j d =
      if idx = (j : ℤ) then v else buffer.getD j d := by
  unfold writeAt
  by_cases he : idx = (j : ℤ)
  · have hb : 0 ≤ idx ∧ idx < (buffer.length : ℤ) := by omega
    have ht : idx.toNat = j := by omega
    rw [if_pos hb, if_pos he, ht, List.getD_eq_getElem?_getD,
      List.getElem?_set_eq_of_lt v hj, Option.getD_some]
  · rw [if_neg he]
    split
    · have hne : idx.toNat ≠ j := by omega
      rw [List.getD_eq_getElem?_getD, List.getElem?_set_ne hne,
        ← List.getD_eq_getElem?_getD]
    · rfl

theorem drawFrom_length {α : Type} (sprite : List α) :
    ∀ (buffer : List α) (start : ℤ),
      (drawFrom buffer sprite start).length = buffer.length := by
  induction sprite with
  | nil => intro buffer start; rfl
  | cons v rest ih =>
    intro buffer start
    rw [drawFrom, ih, writeAt_length]

theorem getD_drawFrom {α : Type} (sprite : List α) :
    ∀ (buffer : List α) (start : ℤ) (d : α) (j : ℕ), j < buffer.length →
      (drawFrom buffer sprite start).getD j d =
        if start ≤ (j : ℤ) ∧ (j : ℤ) < start + sprite.length
        then sprite.getD ((j : ℤ) - start).toNat d
        else buffer.getD j d := by
  induction sprite with
  | nil =>
    intro buffer start d j hj
    have : ¬ (start ≤ (j : ℤ) ∧ (j : ℤ) < start + ([] : List α).length) := by
      simp only [List.length_nil, Int.ofNat_zero, Int.natCast_zero, add_zero]
      omega
    rw [drawFrom, if_neg this]
  | cons v rest ih =>
    intro buffer start d j hj
    have hj' : j < (writeAt buffer start v).length := by
      rw [writeAt_length]; exact hj
    rw [drawFrom, ih (writeAt buffer start v) (start + 1) d j hj',
      getD_writeAt buffer start v d j hj]
    by_cases hin : start + 1 ≤ (j : ℤ) ∧ (j : ℤ) < (start + 1) + rest.length
    · have hout : start ≤ (j : ℤ) ∧ (j : ℤ) < start + (v :: rest).length := by
        simp only [List.length_cons]
        omega
      rw [if_pos hin, if_pos hout]
      have h1 : ((j : ℤ) - start).toNat = ((j : ℤ) - (start + 1)).toNat + 1 := by
        omega
      rw [h1, List.getD_cons_succ]
    · rw [if_neg hin]
      by_cases he : start = (j : ℤ)
      · have hwin : start ≤ (j : ℤ) ∧ (j : ℤ) < start + (v :: rest).length := by
          simp only [List.length_cons]
          omega
        have h0 : ((j : ℤ) - start).toNat = 0 := by omega
        rw [if_pos he, if_pos hwin, h0, List.getD_cons_zero]
      · have hwout : ¬ (start ≤ (j : ℤ) ∧ (j : ℤ) < start + (v :: rest).length) := by
          simp only [List.length_cons]
          omega
        rw [if_neg he, if_neg hwout]

theorem draw_sprite_length {α : Type} (buffer sprite : List α) (offset : ℤ) :
    (draw_sprite buffer sprite offset).length = buffer.length :=
  drawFrom_length sprite buffer (offset - sprite.length)

theorem animate_frames_length {α : Type} (sprite : List α) :
    ∀ (buf : List α) (offsets : List ℤ),
      (animate_frames sprite buf offsets).length = offsets.length := by
  intro buf offsets
  induction offsets generalizing buf with
  | nil => rfl
  | cons o rest ih => rw [animate_frames, List.length_cons, ih, List.length_cons]

theorem animate_frames_getD {α : Type} (sprite : List α) :
    ∀ (offsets : List ℤ) (buf : List α) (k : ℕ) (d : List α),
      k < offsets.length →
      (animate_frames sprite buf offsets).getD k d =
        drawSeq buf sprite (offsets.take (k + 1)) := by
  intro offsets
  induction offsets with
  | nil => intro buf k d hk; simp at hk
  | cons o rest ih =>
    intro buf k d hk
    match k with
    | 0 =>
      rw [animate_frames, List.getD_cons_zero, List.take_succ_cons,
        List.take_zero, drawSeq, List.foldl_cons, List.foldl_nil]
    | k + 1 =>
      have hk' : k < rest.length := by
        simpa using hk
      rw [animate_frames, List.getD_cons_succ,
        ih (draw_sprite buf sprite o) k d hk']
      simp only [drawSeq, List.take_succ_cons, List.foldl_cons]

theorem pixels_to_bytes_length (pixels : List RGBW) :
    (pixels_to_bytes pixels).length = 4 * pixels.length := by
  induction pixels with
  | nil => rfl
  | cons p rest ih =>
    rw [pixels_to_bytes, List.flatMap_cons, List.length_append, ← pixels_to_bytes,
      ih, List.length_cons]
    simp only [List.length_cons, List.length_nil]
    ring

-- -----------------------------------------------------------------------------
-- Brightness-clamp lemmas
-- -----------------------------------------------------------------------------

theorem clamp01_nonneg (b : ℚ) : 0 ≤ clamp01 b :=
  le_min (le_max_right b 0) zero_le_one

theorem clamp01_le_one (b : ℚ) : clamp01 b ≤ 1 := min_le_right _ _

theorem clamp01_idem (b : ℚ) : clamp01 (clamp01 b) = clamp01 b := by
  unfold clamp01
  rw [max_eq_left (le_min (le_max_right b 0) zero_le_one),
    min_eq_left (min_le_right (max b 0) 1)]

theorem clamp01_of_neg {b : ℚ} (h : b < 0) : clamp01 b = 0 := by
  unfold clamp01
  rw [max_eq_right (le_of_lt h), min_eq_left zero_le_one]

theorem clamp01_of_one_lt {b : ℚ} (h : 1 < b) : clamp01 b = 1 := by
  unfold clamp01
  rw [max_eq_left (le_trans zero_le_one (le_of_lt h)), min_eq_right (le_of_lt h)]

theorem clamp01_zero : clamp01 0 = 0 := by
  unfold clamp01
  rw [max_self, min_eq_left zero_le_one]

theorem clamp01_one : clamp01 1 = 1 := by
  unfold clamp01
  rw [max_eq_left zero_le_one, min_self]

-- -----------------------------------------------------------------------------
-- Concrete values of the load-time pixel pipeline
-- -----------------------------------------------------------------------------

theorem idleCell_eq : idleCell = (5, 0, 21, 0) := by
  norm_num [idleCell, applyBrightness1, grbw1, scalePixel, scaleChannel,
    clamp01, pyInt, MAX_BRIGHTNESS, IDLE_FADE]

theorem CHARGE_SPRITE_eq :
    CHARGE_SPRITE =
      [11, 0, 32, 0, 34, 0, 127, 0, 34, 0, 127, 0, 11, 0, 32, 0] := by
  norm_num [CHARGE_SPRITE, pixels_to_bytes, apply_brightness, grbw, grbw1,
    scalePixel, scaleChannel, clamp01, pyInt, MAX_BRIGHTNESS, CHARGE_FADE,
    IDLE_FULL]

theorem BLAST_SPRITE_eq :
    BLAST_SPRITE =
      [5, 0, 21, 0, 0, 12, 0, 0, 0, 127, 0, 0, 0, 12, 0, 0, 5, 0, 21, 0] := by
  norm_num [BLAST_SPRITE, pixels_to_bytes, apply_brightness, grbw, grbw1,
    scalePixel, scaleChannel, clamp01, pyInt, MAX_BRIGHTNESS, IDLE_FADE,
    BLAST_FADE, BLAST_FULL]

theorem IDLE_IMAGE_eq :
    IDLE_IMAGE = pixels_to_bytes (List.replicate NUM_LEDS (5, 0, 21, 0)) := by
  rw [IDLE_IMAGE, idleCell_eq]

theorem charge_tail_bytes :
    pixels_to_bytes [applyBrightness1 MAX_BRIGHTNESS (grbw1 CHARGE_FADE)] =
      [11, 0, 32, 0] := by
  norm_num [pixels_to_bytes, applyBrightness1, grbw1, scalePixel, scaleChannel,
    clamp01, pyInt, MAX_BRIGHTNESS, CHARGE_FADE]

-- -----------------------------------------------------------------------------
-- Claim theorems
-- -----------------------------------------------------------------------------

/-- C1: for every buffer of length N, sprite of length L and integer offset,
`draw_sprite` preserves the buffer length, writes `sprite[i]` exactly to the
in-range indices `(offset - L) + i` (equivalently, cell `j` receives
`sprite[j - (offset - L)]` exactly when `offset - L <= j < offset`), leaves
every other cell unchanged, never writes outside `[0, N)` and is total (no
error, no wraparound) for every offset.  In particular, for a buffer of
length 5 and the sprite `[A, B] = [70, 80]` at offset 1, only index 0 is
written (to B) and all other cells are unchanged. -/
theorem draw_sprite_correct {α : Type} (buffer sprite : List α) (offset : ℤ)
    (d : α) :
    (draw_sprite buffer sprite offset).length = buffer.length ∧
    (∀ j : ℕ, j < buffer.length →
      (draw_sprite buffer sprite offset).getD j d =
        if offset - sprite.length ≤ (j : ℤ) ∧ (j : ℤ) < offset
        then sprite.getD ((j : ℤ) - (offset - sprite.length)).toNat d
        else buffer.getD j d) ∧
    draw_sprite ([10, 20, 30, 40, 50] : List ℤ) [70, 80] 1 =
      [80, 20, 30, 40, 50] := by
  refine ⟨draw_sprite_length buffer sprite offset, ?_, by decide⟩
  intro j hj
  rw [draw_sprite, getD_drawFrom sprite buffer (offset - sprite.length) d j hj]
  have h : offset - (sprite.length : ℤ) + sprite.length = offset := by ring
  rw [h]

/-- C1 witness: in the concrete example, cell 0 of the result is `sprite[1]`. -/
theorem draw_sprite_correct_witness :
    (draw_sprite ([10, 20, 30, 40, 50] : List ℤ) [70, 80] 1).getD 0 0 = 80 := by
  rw [(draw_sprite_correct ([10, 20, 30, 40, 50] : List ℤ) [70, 80] 1 0).2.1 0
    (by decide)]
  decide

/-- C2: animation performs one `draw_sprite` and one presented frame per
offset, and presents exactly N + L frames in total, N and L the pixel lengths
of buffer and sprite.  This holds for the pixel-granularity `animate_sprite`
of `code.py` directly, and for the byte-granularity `animate_sprite` of
`hardware.py` (which steps byte offsets by BPP = 4) on every buffer and sprite
assembled from pixels by `pixels_to_bytes`.  The frame list is returned only
complete, modelling that the call does not return before every frame has been
drawn and presented. -/
theorem animate_sprite_frame_count {α : Type} (buffer sprite : List α)
    (pixbuf pixsprite : List RGBW) :
    (animate_sprite buffer sprite).length = buffer.length + sprite.length ∧
    (∀ k : ℕ, k < buffer.length + sprite.length →
      (animate_sprite buffer sprite).getD k [] =
        drawSeq buffer sprite ((List.range (k + 1)).map Int.ofNat)) ∧
    (animate_sprite_hw (pixels_to_bytes pixbuf) (pixels_to_bytes pixsprite)).length
      = pixbuf.length + pixsprite.length := by
  refine ⟨?_, ?_, ?_⟩
  · rw [animate_sprite, animate_frames_length, List.length_map,
      List.length_range]
  · intro k hk
    have hk' : k < ((List.range (buffer.length + sprite.length)).map
        Int.ofNat).length := by
      rw [List.length_map, List.length_range]; exact hk
    rw [animate_sprite, animate_frames_getD sprite _ buffer k [] hk',
      ← List.map_take, List.take_range, min_eq_left (by omega)]
  · rw [animate_sprite_hw, animate_frames_length, List.length_map,
      List.length_range, pixels_to_bytes_length, pixels_to_bytes_length]
    omega

/-- C2 witness: a concrete two-cell buffer and one-cell sprite animate in
exactly 2 + 1 frames, frame 0 being the first draw. -/
theorem animate_sprite_frame_count_witness :
    (animate_sprite ([10, 20] : List ℤ) [70]).length = 2 + 1 ∧
    (animate_sprite ([10, 20] : List ℤ) [70]).getD 0 [] =
      drawSeq [10, 20] [70] ((List.range 1).map Int.ofNat) := by
  have h := animate_sprite_frame_count ([10, 20] : List ℤ) [70] [] []
  exact ⟨h.1, h.2.1 0 (by decide)⟩

/-- C3: in the TRIGGER state, with `held = now - entry` the elapsed hold time,
`update` returns FIRING whenever the trigger is released (regardless of the
elapsed time, e.g. at held = 0.2 < 0.5), returns CHARGING when the trigger is
still pressed and `held > CHARGE_THRESHOLD = 0.5` (e.g. at held = 0.6), and
returns no transition otherwise. -/
theorem trigger_state_transitions (pressed : Bool) (now entry : ℚ)
    (h : entry ≤ now) :
    (pressed = false →
      triggerStateUpdate pressed now entry = some STATE_FIRING) ∧
    (pressed = true → now - entry > CHARGE_THRESHOLD →
      triggerStateUpdate pressed now entry = some STATE_CHARGING) ∧
    (pressed = true → now - entry ≤ CHARGE_THRESHOLD →
      triggerStateUpdate pressed now entry = none) ∧
    triggerStateUpdate false (2/10) 0 = some STATE_FIRING ∧
    triggerStateUpdate true (6/10) 0 = some STATE_CHARGING := by
  have habs : |now - entry| = now - entry := abs_of_nonneg (by linarith)
  refine ⟨?_, ?_, ?_, ?_, ?_⟩
  · intro hp
    subst hp
    rfl
  · intro hp hgt
    subst hp
    simp only [triggerStateUpdate, habs, if_true]
    rw [if_pos hgt]
  · intro hp hle
    subst hp
    simp only [triggerStateUpdate, habs, if_true]
    rw [if_neg (not_lt.mpr hle)]
  · rfl
  · simp only [triggerStateUpdate, CHARGE_THRESHOLD, sub_zero, if_true]
    rw [abs_of_nonneg (by norm_num : (0 : ℚ) ≤ 6/10)]
    norm_num

/-- C3 witness: a release observed 0.2 after entry transitions to FIRING. -/
theorem trigger_state_transitions_witness :
    triggerStateUpdate false (2/10) 0 = some STATE_FIRING :=
  (trigger_state_transitions false (2/10) 0 (by norm_num)).1 rfl

/-- C4 counterexample: the claim fails for the charge sprite — its tail
(bytes 0..3) is the scaled, reordered CHARGE_FADE, which differs from the
cell the static idle image fills the buffer with. -/
theorem charge_sprite_tail_ne_background :
    CHARGE_SPRITE.take BPP ≠ IDLE_IMAGE.take BPP := by
  rw [CHARGE_SPRITE_eq, IDLE_IMAGE_eq]
  decide

/-- C4 amended: the blast sprite's tail equals the idle background cell
(same brightness scaling and channel reordering), but the charge sprite's
tail is CHARGE_FADE under that same pipeline, not the idle background. -/
theorem blast_sprite_tail_eq_background :
    BLAST_SPRITE.take BPP = IDLE_IMAGE.take BPP ∧
    CHARGE_SPRITE.take BPP =
      pixels_to_bytes [applyBrightness1 MAX_BRIGHTNESS (grbw1 CHARGE_FADE)] := by
  constructor
  · rw [BLAST_SPRITE_eq, IDLE_IMAGE_eq]
    decide
  · rw [CHARGE_SPRITE_eq, charge_tail_bytes]
    decide

/-- C5: each `update()` call runs the current state update hook exactly once;
when it returns a state name the single transition happens synchronously in
the order exit (old) → switch → enter (new) inside the same call, and when it
returns none no exit or enter hook runs and the current state is unchanged.
The event list records every hook invocation in order, so at most one
transition (one exit/enter pair) occurs per call. -/
theorem machine_update_single_transition {σ : Type} (m : Machine σ) (s : σ)
    (st : StateDef σ) (hcur : m.current = some st) :
    ((st.update s).2 = none →
      machineUpdate m s = .ok (m, (st.update s).1, [Event.updateEv st.name])) ∧
    (∀ n st2, (st.update s).2 = some n → n ≠ "" →
      tableLookup m.states n = some st2 →
      machineUpdate m s =
        .ok ({ m with current := some st2 },
          st2.enter (st.exitHook (st.update s).1),
          [Event.updateEv st.name, Event.exitEv st.name,
           Event.enterEv st2.name])) := by
  constructor
  · intro hnone
    unfold machineUpdate
    rw [hcur]
    simp only [hnone]
  · intro n st2 hsome hne hlook
    unfold machineUpdate
    rw [hcur]
    simp only [hsome, if_neg hne]
    unfold setMachineState
    rw [hcur]
    simp only [hlook]
    rfl

-- A concrete two-state machine over `σ = ℕ` used by the machine witnesses.

def stA : StateDef ℕ :=
  { name := "A"
    enter := (· + 10)
    exitHook := (· + 100)
    update := fun s => (s + 1, some "B") }

def stB : StateDef ℕ :=
  { name := "B"
    enter := (· + 1000)
    exitHook := id
    update := fun s => (s, none) }

def mAB : Machine ℕ := ⟨[stA, stB], some stA⟩

/-- C5 witness: on the concrete machine, one `update` runs A's update hook,
then A's exit, then installs and enters B, all in one call. -/
theorem machine_update_single_transition_witness :
    machineUpdate mAB 0 =
      .ok ({ mAB with current := some stB },
        stB.enter (stA.exitHook (stA.update 0).1),
        [Event.updateEv stA.name, Event.exitEv stA.name,
         Event.enterEv stB.name]) :=
  (machine_update_single_transition mAB 0 stA rfl).2 "B" stB rfl
    (by decide) rfl

/-- C6: the CHARGED state update returns FIRING exactly when the trigger is
not pressed (the pulled-up switch reads high), and while the trigger stays
pressed any number of consecutive `update` calls leaves the machine CHARGED
and performs no transition. -/
theorem charged_state_fires_on_release (sv : Bool) (k : ℕ) :
    (chargedStateDef.update sv).2 =
      (if trigger sv then none else some STATE_FIRING) ∧
    (chargedStateUpdate sv = some STATE_FIRING ↔ trigger sv = false) ∧
    iterUpdate ⟨[chargedStateDef], some chargedStateDef⟩ false k =
      .ok (⟨[chargedStateDef], some chargedStateDef⟩, false) := by
  refine ⟨?_, ?_, ?_⟩
  · cases sv <;> rfl
  · cases sv <;> simp [chargedStateUpdate, trigger, STATE_FIRING]
  · induction k with
    | zero => rfl
    | succ k ih => exact ih

/-- C8: setting the machine state to a name absent from the state table —
directly through the setter or through a state update returning that name —
raises an error (the missing key) instead of silently installing a state,
while a name present in the table always looks up successfully and installs
the found state. -/
theorem unknown_state_name_errors {σ : Type} (m : Machine σ) (s : σ)
    (v : String) :
    ((tableLookup m.states v).isSome ↔ ∃ st ∈ m.states, st.name = v) ∧
    (tableLookup m.states v = none →
      ∃ s1 evs, setMachineState m s v = .error (v, s1, evs)) ∧
    (∀ st2, tableLookup m.states v = some st2 →
      ∃ s1 evs, setMachineState m s v =
        .ok ({ m with current := some st2 }, s1, evs)) ∧
    (∀ st, m.current = some st → (st.update s).2 = some v → v ≠ "" →
      tableLookup m.states v = none →
      ∃ s1 evs, machineUpdate m s = .error (v, s1, evs)) := by
  refine ⟨?_, ?_, ?_, ?_⟩
  · rw [tableLookup, List.find?_isSome]
    constructor
    · rintro ⟨st, hmem, hname⟩
      exact ⟨st, List.mem_reverse.mp hmem, by simpa using hname⟩
    · rintro ⟨st, hmem, hname⟩
      exact ⟨st, List.mem_reverse.mpr hmem, by simpa using hname⟩
  · intro hnone
    unfold setMachineState
    rw [hnone]
    exact ⟨_, _, rfl⟩
  · intro st2 hsome
    unfold setMachineState
    rw [hsome]
    exact ⟨_, _, rfl⟩
  · intro st hcur hsome hne hnone
    unfold machineUpdate
    rw [hcur]
    simp only [hsome, if_neg hne]
    unfold setMachineState
    rw [hnone]
    exact ⟨_, _, rfl⟩

/-- C8 witness: on the concrete machine, setting the unknown name C raises
the missing key, and the known name B looks up and installs B. -/
theorem unknown_state_name_errors_witness :
    (∃ s1 evs, setMachineState mAB 0 "C" = .error ("C", s1, evs)) ∧
    (∃ s1 evs, setMachineState mAB 0 "B" =
      .ok ({ mAB with current := some stB }, s1, evs)) :=
  ⟨(unknown_state_name_errors mAB 0 "C").2.1 rfl,
   (unknown_state_name_errors mAB 0 "B").2.2.1 stB rfl⟩

/-- C9: a machine constructed without an initial state has no current state,
and construction invokes no hook; every `update()` call in that condition is
a no-op — no update, enter or exit hook runs (the event list is empty), no
transition occurs, and machine and world are unchanged. -/
theorem no_initial_state_noop {σ : Type} (states : List (StateDef σ)) (s : σ) :
    machineInit states none s = .ok (⟨states, none⟩, s, []) ∧
    machineUpdate (⟨states, none⟩ : Machine σ) s =
      .ok (⟨states, none⟩, s, []) :=
  ⟨rfl, rfl⟩

/-- C7: `apply_brightness` never rejects a brightness: a value below 0 acts
exactly as 0, a value above 1 acts exactly as 1 (the nearest clamped value),
and every output channel is the corresponding input channel multiplied by the
clamped brightness and truncated to an integer. -/
theorem apply_brightness_clamps (b : ℚ) (pixels : List RGBW) :
    apply_brightness b pixels = apply_brightness (clamp01 b) pixels ∧
    (b < 0 → apply_brightness b pixels = apply_brightness 0 pixels) ∧
    (1 < b → apply_brightness b pixels = apply_brightness 1 pixels) ∧
    (∀ k : ℕ, k < pixels.length → ∀ d : RGBW,
      (apply_brightness b pixels).getD k d =
        (pyInt ((pixels.getD k d).1 * clamp01 b),
         pyInt ((pixels.getD k d).2.1 * clamp01 b),
         pyInt ((pixels.getD k d).2.2.1 * clamp01 b),
         pyInt ((pixels.getD k d).2.2.2 * clamp01 b))) := by
  refine ⟨?_, ?_, ?_, ?_⟩
  · rw [apply_brightness, apply_brightness, clamp01_idem]
  · intro hneg
    rw [apply_brightness, apply_brightness, clamp01_of_neg hneg, clamp01_zero]
  · intro hgt
    rw [apply_brightness, apply_brightness, clamp01_of_one_lt hgt, clamp01_one]
  · intro k hk d
    have hk' : k < (apply_brightness b pixels).length := by
      rw [apply_brightness, List.length_map]; exact hk
    rw [List.getD_eq_getElem _ _ hk', List.getD_eq_getElem _ _ hk]
    simp only [apply_brightness, List.getElem_map]
    rfl

/-- C7 witness: brightness 2 acts exactly as the clamped value 1, and at the
in-range index 0 the output is the channel-wise scaled input. -/
theorem apply_brightness_clamps_witness :
    apply_brightness 2 [IDLE_FULL] = apply_brightness 1 [IDLE_FULL] ∧
    (apply_brightness 2 [IDLE_FULL]).getD 0 (0, 0, 0, 0) =
      (pyInt ((([IDLE_FULL].getD 0 (0, 0, 0, 0)).1 : ℚ) * clamp01 2),
       pyInt ((([IDLE_FULL].getD 0 (0, 0, 0, 0)).2.1 : ℚ) * clamp01 2),
       pyInt ((([IDLE_FULL].getD 0 (0, 0, 0, 0)).2.2.1 : ℚ) * clamp01 2),
       pyInt ((([IDLE_FULL].getD 0 (0, 0, 0, 0)).2.2.2 : ℚ) * clamp01 2)) :=
  ⟨(apply_brightness_clamps 2 [IDLE_FULL]).2.2.1 (by norm_num),
   (apply_brightness_clamps 2 [IDLE_FULL]).2.2.2 0 (by decide) (0, 0, 0, 0)⟩

/-- C10: channel reordering and brightness scaling commute, pixel-wise and
batch-wise, so the load-time pipeline produces the same colors whether the
reorder is applied before brightness (as for the charge and blast sprites) or
after it (as for the idle image); in particular the idle cell equals the
reorder-first computation. -/
theorem grbw_apply_brightness_comm (b : ℚ) (p : RGBW) (pixels : List RGBW) :
    grbw1 (applyBrightness1 b p) = applyBrightness1 b (grbw1 p) ∧
    grbw (apply_brightness b pixels) = apply_brightness b (grbw pixels) ∧
    idleCell = applyBrightness1 MAX_BRIGHTNESS (grbw1 IDLE_FADE) := by
  refine ⟨rfl, ?_, rfl⟩
  rw [grbw, apply_brightness, apply_brightness, grbw, List.map_map,
    List.map_map]
  rfl

end Blaster
